import Mathlib

/-!
Verification of the offline upload queue and synchronization subsystem
(`src/lib/sw/queue-manager.ts`, `src/lib/retry.ts`, `src/lib/db/indexedDB.ts`).

The TypeScript code is shallowly embedded: the IndexedDB `pendingUploads`
object store becomes a list of records, the wrapper's `get`/`put`/`delete`/
`getAll`/index lookups become pure functions on that list, the generic
retry helper becomes a function over an explicit sequence of attempt
outcomes, and the queue manager's drain pass becomes a pure function that
also returns the trace of intermediate store states, the list of progress
notifications and the count of network invocations.  Timing (the `sleep`
between sub-retries) has no effect on any of the modelled observables and
is therefore not part of the state.
-/

namespace ProQueue

/-- Media kind discriminator, `'image' | 'video'` in `indexedDB.ts`. -/
inductive MediaType where
  | image
  | video
deriving DecidableEq

/-- Upload status, `'pending' | 'uploading' | 'failed'` in the
`PendingUpload` interface of `indexedDB.ts` (there is no `completed`
status: completed records are deleted, not retained). -/
inductive UploadStatus where
  | pending
  | uploading
  | failed
deriving DecidableEq

/-- One queued upload, mirroring the `PendingUpload` interface of
`indexedDB.ts`.  The `File` payload is opaque to the queue and is
modelled by its contents as a string. -/
structure PendingUpload where
  id : String
  file : String
  mediaType : MediaType
  status : UploadStatus
  progress : Nat
  retryCount : Nat
  createdAt : Nat
  error : Option String
deriving DecidableEq

/-- The `pendingUploads` IndexedDB object store: a list of records keyed
by `id`. -/
abbrev Store := List PendingUpload

/-- Point lookup by key, `IndexedDBWrapper.get` (no error on miss). -/
def dbGet (s : Store) (key : String) : Option PendingUpload :=
  List.find? (fun r => r.id = key) s

/-- Insert-or-replace by key, `IndexedDBWrapper.update`.  The wrapper
calls `IDBObjectStore.put`, whose semantics are upsert: if a record with
the same key exists it is replaced in place, otherwise the record is
inserted.  (Keys are unique in an object store, so at most one entry can
match.) -/
def dbUpdate : Store → PendingUpload → Store
  | [], d => [d]
  | r :: rest, d => if r.id = d.id then d :: rest else r :: dbUpdate rest d

/-- Key deletion, `IndexedDBWrapper.delete` (`IDBObjectStore.delete`,
idempotent: deleting an absent key succeeds). -/
def dbDelete (s : Store) (key : String) : Store :=
  List.filter (fun r => !(r.id = key : Bool)) s

/-- Whole-store scan, `IndexedDBWrapper.getAll`. -/
def dbGetAll (s : Store) : List PendingUpload := s

/-- Secondary-index lookup on the `status` index,
`IndexedDBWrapper.getByIndex(store, 'status', v)`. -/
def dbGetByIndexStatus (s : Store) (v : UploadStatus) : List PendingUpload :=
  List.filter (fun r => r.status = v) s

/-- Store-wide wipe, `IndexedDBWrapper.clear`. -/
def dbClear (_ : Store) : Store := []

/-- Result of the transfer call: the `Response` object returned by
`fetch` in `QueueManager.uploadFile` — only the fields the queue manager
inspects (`ok` and `status`). -/
structure Response where
  ok : Bool
  statusCode : Nat
deriving DecidableEq

/-- One run of the `while` loop body chain of `retryWithBackoff`
(`retry.ts`): `op i` is the outcome of the `i`-th invocation of the
operation (0-based; `Except.error` models the operation throwing).
`remaining` is the number of retries still allowed
(`maxRetries - attempt` in the source: the loop breaks and rethrows when,
after a failure, the incremented `attempt` exceeds `maxRetries`).
Returns the final outcome together with the number of invocations
performed. -/
def retryGo (op : Nat → Except String α) : Nat → Nat → Except String α × Nat
  | i, remaining =>
    match op i with
    | Except.ok v => (Except.ok v, 1)
    | Except.error e =>
      match remaining with
      | 0 => (Except.error e, 1)
      | r + 1 =>
        let p := retryGo op (i + 1) r
        (p.1, p.2 + 1)

/-- `retryWithBackoff(operation, { maxRetries })` from `retry.ts`:
returns the first successful outcome, or throws the error of the last
invocation once `maxRetries` retries have been exhausted. -/
def retryWithBackoff (op : Nat → Except String α) (maxRetries : Nat) : Except String α :=
  (retryGo op 0 maxRetries).1

/-- Number of times `retryWithBackoff` invokes the operation. -/
def retryInvocations (op : Nat → Except String α) (maxRetries : Nat) : Nat :=
  (retryGo op 0 maxRetries).2

/-- Backoff delay: `calculateBackoffDelay` from `retry.ts`.
`base = initialDelay * backoffFactor ^ (attempt - 1)`, plus jitter of
`Math.random() * 0.3 * base` (the random draw `r` from `[0, 1)` is an
explicit argument), clamped to `maxDelay`.  Modelled over `ℚ`. -/
def calculateBackoffDelay (attempt : Nat) (initialDelay maxDelay backoffFactor r : ℚ) : ℚ :=
  let delay := initialDelay * backoffFactor ^ (attempt - 1)
  let jitter := r * (3 / 10) * delay
  min (delay + jitter) maxDelay

/-- Observable outcome of `QueueManager.processUpload` for one record:
the final store, the sequence of progress notifications emitted (each
entry is the record value passed to `notifyProgress`), the trace of store
states after each persistence call (a reader of the store between two of
these calls observes exactly these states, in order), and the number of
times `uploadFile` (the network call) was invoked. -/
structure ProcResult where
  store : Store
  notifications : List PendingUpload
  trace : List Store
  invocations : Nat
deriving DecidableEq

/-- The record mutation `upload.status = 'uploading'` performed at the
start of `processUpload` (queue-manager.ts line 163). -/
def markUploading (u : PendingUpload) : PendingUpload :=
  { u with status := UploadStatus.uploading }

/-- The record mutations of the `catch` block (queue-manager.ts lines
195–197): status `failed`, `retryCount` incremented, error message
stored. -/
def markFailed (u : PendingUpload) (msg : String) : PendingUpload :=
  { u with status := UploadStatus.failed, retryCount := u.retryCount + 1, error := some msg }

/-- The record value passed to the success callback (queue-manager.ts
lines 187–188): `status` set (back) to the literal `'pending'` and
`progress` to 100, after the record has already been deleted from the
store. -/
def successNotification (u : PendingUpload) : PendingUpload :=
  { u with status := UploadStatus.pending, progress := 100 }

/-- The `catch` block of `QueueManager.processUpload` (queue-manager.ts
lines 193–209): apply `markFailed`, persist (`db.update`), notify, and —
if the incremented `retryCount` has reached 5 — additionally delete the
record from the store.  `s1`, `u1`, `notifs`, `tr`, `invocs` are the
store, in-memory record, notifications, trace and invocation count
accumulated before the failure was caught. -/
def uploadFailureHandler (s1 : Store) (u1 : PendingUpload) (notifs : List PendingUpload)
    (tr : List Store) (invocs : Nat) (msg : String) : ProcResult :=
  let u2 := markFailed u1 msg
  let s2 := dbUpdate s1 u2
  if u2.retryCount ≥ 5 then
    let s3 := dbDelete s2 u2.id
    { store := s3, notifications := notifs ++ [u2], trace := tr ++ [s2, s3], invocations := invocs }
  else
    { store := s2, notifications := notifs ++ [u2], trace := tr ++ [s2], invocations := invocs }

/-- `QueueManager.processUpload` (queue-manager.ts lines 159–210): mark
the record `uploading`, persist and notify; run the network call through
`retryWithBackoff` with `maxRetries = 3`; on an `ok` response delete the
record and emit the synthetic completion notification; on a non-`ok`
response or a thrown error fall into the failure handler.  `op i` is the
outcome of the `i`-th `uploadFile` invocation. -/
def processUpload (s : Store) (upload : PendingUpload) (op : Nat → Except String Response) :
    ProcResult :=
  let u1 := markUploading upload
  let s1 := dbUpdate s u1
  let r := retryGo op 0 3
  match r.1 with
  | Except.ok resp =>
    if resp.ok then
      let s2 := dbDelete s1 u1.id
      let u2 := successNotification u1
      { store := s2, notifications := [u1, u2], trace := [s1, s2], invocations := r.2 }
    else
      uploadFailureHandler s1 u1 [u1] [s1] r.2 ("업로드 실패: " ++ toString resp.statusCode)
  | Except.error e => uploadFailureHandler s1 u1 [u1] [s1] r.2 e

/-- The `for (const upload of pendingUploads)` loop of
`QueueManager.processQueue`: records are processed sequentially; one
record's outcome never aborts the rest.  `op` maps a record id to that
record's sequence of network outcomes.  Returns the final store, all
notifications in order, and the total number of network invocations. -/
def drainRecords (s : Store) (recs : List PendingUpload)
    (op : String → Nat → Except String Response) : Store × List PendingUpload × Nat :=
  match recs with
  | [] => (s, [], 0)
  | r :: rest =>
    let pr := processUpload s r (op r.id)
    let rec' := drainRecords pr.store rest op
    (rec'.1, pr.notifications ++ rec'.2.1, pr.invocations + rec'.2.2)

/-- Queue manager state visible to `processQueue`: the `isProcessing`
guard flag and the backing store. -/
structure QueueState where
  isProcessing : Bool
  store : Store
deriving DecidableEq

/-- `QueueManager.processQueue` (queue-manager.ts lines 116–153): if a
drain is already running (`isProcessing`) return immediately; if offline
return immediately; otherwise set the flag, fetch the records whose
`status` index value is `pending`, process them sequentially, and clear
the flag in `finally`.  The guard check and the flag set are separated by
no suspension point in the source, so the check-and-set is atomic with
respect to the event loop and is modelled as one step.  Returns the new
state, the notifications and the number of network invocations. -/
def processQueue (q : QueueState) (online : Bool) (op : String → Nat → Except String Response) :
    QueueState × List PendingUpload × Nat :=
  if q.isProcessing then (q, [], 0)
  else if !online then (q, [], 0)
  else
    let pendings := dbGetByIndexStatus q.store UploadStatus.pending
    let res := drainRecords q.store pendings op
    ({ isProcessing := false, store := res.1 }, res.2.1, res.2.2)

/-- Queue manager state touched by `init`/`cleanup`: besides the store
and the guard flag, whether the `online` listener is registered. -/
structure QMFull where
  store : Store
  isProcessing : Bool
  onlineListenerRegistered : Bool
deriving DecidableEq

/-- `QueueManager.init` (queue-manager.ts lines 38–53): if the listener
is already registered do nothing; otherwise register it.  The body
contains no store access at all — in particular no re-homing of records
left in `uploading` status by a crash. -/
def qmInit (m : QMFull) : QMFull :=
  if m.onlineListenerRegistered then m
  else { m with onlineListenerRegistered := true }

/-- Error raised by queue manager operations; `retryUpload` throws
`Error("업로드를 찾을 수 없습니다: …")` when the record is absent, the
spec's `NotFound`. -/
inductive QMError where
  | notFound (id : String)
deriving DecidableEq

/-- `QueueManager.retryUpload` (queue-manager.ts lines 248–263): load the
record, throw `NotFound` if absent; otherwise reset `status` to
`pending`, clear `error`, persist, and trigger `processQueue` (the
returned `Bool` records that the drain trigger was issued). -/
def retryUpload (s : Store) (uploadId : String) : Except QMError (Store × Bool) :=
  match dbGet s uploadId with
  | none => Except.error (QMError.notFound uploadId)
  | some u =>
    let u' : PendingUpload := { u with status := UploadStatus.pending, error := none }
    Except.ok (dbUpdate s u', true)

/-- `QueueManager.cancelUpload`: unconditional, idempotent deletion. -/
def cancelUpload (s : Store) (uploadId : String) : Store :=
  dbDelete s uploadId

/-- Progress delivery: `QueueManager.notifyProgress` invokes every
registered callback once, in registration order, with the record value;
a throwing callback is caught and does not suppress later deliveries.
Subscribers are identified by `Nat` tokens; the result lists the
deliveries (subscriber, record) actually made. -/
def notifyProgress (subs : List Nat) (u : PendingUpload) : List (Nat × PendingUpload) :=
  List.map (fun sb => (sb, u)) subs

/-- Snapshot returned by `QueueManager.getQueueStatus` (queue-manager.ts
lines 327–342). -/
structure QueueStatusSnapshot where
  total : Nat
  pending : Nat
  uploading : Nat
  failed : Nat
deriving DecidableEq

/-- `QueueManager.getQueueStatus`: `getAll` then count by status. -/
def getQueueStatus (s : Store) : QueueStatusSnapshot :=
  let allUploads := dbGetAll s
  { total := allUploads.length
    pending := (List.filter (fun u => u.status = UploadStatus.pending) allUploads).length
    uploading := (List.filter (fun u => u.status = UploadStatus.uploading) allUploads).length
    failed := (List.filter (fun u => u.status = UploadStatus.failed) allUploads).length }

/-- Interleaving model for the single-flight guard.  A `tryStart` is the
atomic synchronous prefix of any `processQueue` invocation (from an
explicit call, `addToQueue`'s auto-trigger, the `online` listener,
`retryUpload` or `retryAllFailed`): it begins a pass only if the guard is
clear.  A `finish` is the `finally` block of an active pass clearing the
guard. -/
inductive DrainEvent where
  | tryStart
  | finish
deriving DecidableEq

/-- Guard flag plus the number of drain passes currently iterating
records. -/
structure FlightState where
  isProcessing : Bool
  active : Nat
deriving DecidableEq

/-- One scheduler step of the guard model. -/
def drainStep (st : FlightState) : DrainEvent → FlightState
  | DrainEvent.tryStart =>
    if st.isProcessing then st
    else { isProcessing := true, active := st.active + 1 }
  | DrainEvent.finish =>
    if st.active = 0 then st
    else { isProcessing := false, active := st.active - 1 }

/-- Initial state: no pass running. -/
def flightInit : FlightState := { isProcessing := false, active := 0 }

/-- The guard invariant: a pass is iterating exactly when the flag is
set. -/
def FlightInv (st : FlightState) : Prop :=
  st.active = (if st.isProcessing then 1 else 0)

/-- A sample queued record with the given id, status and retry count,
used for concrete counterexamples and witnesses. -/
def mkUpload (uid : String) (st : UploadStatus) (rc : Nat) : PendingUpload :=
  { id := uid, file := "bytes", mediaType := MediaType.image, status := st,
    progress := 0, retryCount := rc, createdAt := 0, error := none }

/-! ### Record-mutation accessor lemmas -/

@[simp] theorem markUploading_id (u : PendingUpload) : (markUploading u).id = u.id := rfl

@[simp] theorem markUploading_retryCount (u : PendingUpload) :
    (markUploading u).retryCount = u.retryCount := rfl

@[simp] theorem markFailed_id (u : PendingUpload) (msg : String) :
    (markFailed u msg).id = u.id := rfl

@[simp] theorem markFailed_retryCount (u : PendingUpload) (msg : String) :
    (markFailed u msg).retryCount = u.retryCount + 1 := rfl

@[simp] theorem successNotification_id (u : PendingUpload) :
    (successNotification u).id = u.id := rfl

/-! ### Store lemmas -/

theorem dbGet_dbUpdate_self (s : Store) (d : PendingUpload) :
    dbGet (dbUpdate s d) d.id = some d := by
  induction s with
  | nil => simp [dbUpdate, dbGet, List.find?]
  | cons r rest ih =>
    by_cases h : r.id = d.id
    · simp [dbUpdate, h, dbGet, List.find?]
    · simpa [dbUpdate, h, dbGet, List.find?] using ih

theorem dbGet_dbDelete_self (s : Store) (k : String) :
    dbGet (dbDelete s k) k = none := by
  induction s with
  | nil => simp [dbDelete, dbGet]
  | cons r rest ih =>
    by_cases h : r.id = k
    · simp [dbDelete, dbGet, h] at ih ⊢
    · simp [dbDelete, dbGet, List.find?, h] at ih ⊢

theorem mem_dbUpdate_of_id_ne {u : PendingUpload} {s : Store} (d : PendingUpload)
    (hmem : u ∈ s) (hne : u.id ≠ d.id) : u ∈ dbUpdate s d := by
  induction s with
  | nil => cases hmem
  | cons r rest ih =>
    rcases List.mem_cons.mp hmem with hur | hur
    · subst hur
      by_cases h : u.id = d.id
      · exact absurd h hne
      · simp [dbUpdate, h]
    · by_cases h : r.id = d.id
      · simp [dbUpdate, h, List.mem_cons, hur]
      · simp [dbUpdate, h, List.mem_cons, ih hur]

theorem mem_dbDelete_of_id_ne {u : PendingUpload} {s : Store} (k : String)
    (hmem : u ∈ s) (hne : u.id ≠ k) : u ∈ dbDelete s k := by
  refine List.mem_filter.mpr ⟨hmem, ?_⟩
  simp [hne]

theorem dbGet_eq_some_id {s : Store} {k : String} {u : PendingUpload}
    (h : dbGet s k = some u) : u.id = k := by
  have := List.find?_some h
  exact of_decide_eq_true this

/-! ### Retry helper lemmas -/

theorem retryGo_ok {α : Type} {op : Nat → Except String α} {i : Nat} {v : α}
    (h : op i = Except.ok v) (rem : Nat) : retryGo op i rem = (Except.ok v, 1) := by
  cases rem <;> simp [retryGo, h]

theorem retryGo_error_zero {α : Type} {op : Nat → Except String α} {i : Nat} {e : String}
    (h : op i = Except.error e) : retryGo op i 0 = (Except.error e, 1) := by
  simp [retryGo, h]

theorem retryGo_error_succ {α : Type} {op : Nat → Except String α} {i : Nat} {e : String}
    (h : op i = Except.error e) (r : Nat) :
    retryGo op i (r + 1) = ((retryGo op (i + 1) r).1, (retryGo op (i + 1) r).2 + 1) := by
  conv =>
    lhs
    rw [retryGo]
  rw [h]

theorem retryGo_all_error {α : Type} (msgs : Nat → String)
    (op : Nat → Except String α) (hop : ∀ j, op j = Except.error (msgs j)) :
    ∀ rem i, retryGo op i rem = (Except.error (msgs (i + rem)), rem + 1) := by
  intro rem
  induction rem with
  | zero => intro i; simp [retryGo_error_zero (hop i)]
  | succ r ih =>
    intro i
    rw [retryGo_error_succ (hop i) r, ih (i + 1)]
    have : i + 1 + r = i + (r + 1) := by omega
    rw [this]

theorem retryGo_invocations_le {α : Type} (op : Nat → Except String α) :
    ∀ rem i, (retryGo op i rem).2 ≤ rem + 1 := by
  intro rem
  induction rem with
  | zero =>
    intro i
    cases h : op i with
    | ok v => simp [retryGo_ok h]
    | error e => simp [retryGo_error_zero h]
  | succ r ih =>
    intro i
    cases h : op i with
    | ok v => simp [retryGo_ok h]
    | error e =>
      rw [retryGo_error_succ h r]
      have := ih (i + 1)
      omega

theorem retryGo_first_success {α : Type} (op : Nat → Except String α) (v : α) :
    ∀ k rem i, op (i + k) = Except.ok v →
      (∀ j, j < k → ∃ e, op (i + j) = Except.error e) → k ≤ rem →
      retryGo op i rem = (Except.ok v, k + 1) := by
  intro k
  induction k with
  | zero =>
    intro rem i hok _ _
    simp only [Nat.add_zero] at hok
    simp [retryGo_ok hok rem]
  | succ n ih =>
    intro rem i hok hprev hle
    obtain ⟨e, he⟩ := hprev 0 (Nat.succ_pos n)
    simp only [Nat.add_zero] at he
    obtain ⟨r, rfl⟩ : ∃ r, rem = r + 1 := ⟨rem - 1, by omega⟩
    have hok' : op (i + 1 + n) = Except.ok v := by
      have : i + 1 + n = i + (n + 1) := by omega
      rw [this]; exact hok
    have hprev' : ∀ j, j < n → ∃ e, op (i + 1 + j) = Except.error e := by
      intro j hj
      have : i + 1 + j = i + (j + 1) := by omega
      rw [this]; exact hprev (j + 1) (by omega)
    have hrec := ih r (i + 1) hok' hprev' (by omega)
    rw [retryGo_error_succ he r, hrec]

/-! ### Single-flight guard lemmas -/

theorem drainStep_preserves_inv {st : FlightState} (h : FlightInv st) (e : DrainEvent) :
    FlightInv (drainStep st e) := by
  cases e with
  | tryStart =>
    by_cases hp : st.isProcessing
    · simpa [drainStep, hp] using h
    · simp [FlightInv, drainStep, hp] at h ⊢
      omega
  | finish =>
    by_cases ha : st.active = 0
    · simpa [drainStep, ha] using h
    · by_cases hp : st.isProcessing
      · simp [FlightInv, drainStep, ha, hp] at h ⊢
        omega
      · simp [FlightInv, drainStep, ha, hp] at h ⊢

theorem foldl_drainStep_inv (evs : List DrainEvent) :
    ∀ st : FlightState, FlightInv st → FlightInv (List.foldl drainStep st evs) := by
  induction evs with
  | nil => intro st h; exact h
  | cons e rest ih =>
    intro st h
    exact ih (drainStep st e) (drainStep_preserves_inv h e)

/-! ### Drain store-preservation lemmas -/

theorem uploadFailureHandler_mem {u : PendingUpload} {s1 : Store} (u1 : PendingUpload)
    (notifs : List PendingUpload) (tr : List Store) (invocs : Nat) (msg : String)
    (hmem : u ∈ s1) (hne : u.id ≠ u1.id) :
    u ∈ (uploadFailureHandler s1 u1 notifs tr invocs msg).store := by
  have hne2 : u.id ≠ (markFailed u1 msg).id := by simpa using hne
  unfold uploadFailureHandler
  by_cases h5 : (markFailed u1 msg).retryCount ≥ 5
  · simp only [h5, if_pos]
    exact mem_dbDelete_of_id_ne _ (mem_dbUpdate_of_id_ne _ hmem hne2) hne2
  · simp only [h5, if_neg, ite_false]
    exact mem_dbUpdate_of_id_ne _ hmem hne2

theorem processUpload_mem {u : PendingUpload} {s : Store} (upload : PendingUpload)
    (op : Nat → Except String Response)
    (hmem : u ∈ s) (hne : u.id ≠ upload.id) :
    u ∈ (processUpload s upload op).store := by
  have hne1 : u.id ≠ (markUploading upload).id := by simpa using hne
  unfold processUpload
  have h1 : u ∈ dbUpdate s (markUploading upload) :=
    mem_dbUpdate_of_id_ne _ hmem hne1
  cases hr : (retryGo op 0 3).1 with
  | ok resp =>
    by_cases hok : resp.ok
    · simp only [hr, hok, if_pos]
      exact mem_dbDelete_of_id_ne _ h1 hne1
    · simp only [hr, hok]
      simp only [Bool.false_eq_true, if_false]
      exact uploadFailureHandler_mem _ _ _ _ _ h1 hne1
  | error e =>
    simp only [hr]
    exact uploadFailureHandler_mem _ _ _ _ _ h1 hne1

theorem drainRecords_mem {u : PendingUpload} (op : String → Nat → Except String Response) :
    ∀ (recs : List PendingUpload) (s : Store), u ∈ s → (∀ r ∈ recs, r.id ≠ u.id) →
      u ∈ (drainRecords s recs op).1 := by
  intro recs
  induction recs with
  | nil => intro s hmem _; exact hmem
  | cons r rest ih =>
    intro s hmem hids
    have hne : u.id ≠ r.id := fun h => hids r (List.mem_cons_self r rest) h.symm
    have h1 : u ∈ (processUpload s r (op r.id)).store := processUpload_mem r (op r.id) hmem hne
    have := ih (processUpload s r (op r.id)).store h1
      (fun x hx => hids x (List.mem_cons_of_mem r hx))
    simpa [drainRecords] using this

theorem notifyProgress_count (subs : List Nat) (u : PendingUpload) (sb : Nat) :
    (notifyProgress subs u).count (sb, u) = subs.count sb := by
  induction subs with
  | nil => rfl
  | cons a rest ih =>
    simp [notifyProgress, List.count_cons, Prod.ext_iff] at ih ⊢
    rw [ih]

theorem uploadFailureHandler_notifications (s1 : Store) (u1 : PendingUpload)
    (notifs : List PendingUpload) (tr : List Store) (invocs : Nat) (msg : String) :
    (uploadFailureHandler s1 u1 notifs tr invocs msg).notifications =
      notifs ++ [markFailed u1 msg] := by
  simp only [uploadFailureHandler]
  split <;> rfl

theorem uploadFailureHandler_invocations (s1 : Store) (u1 : PendingUpload)
    (notifs : List PendingUpload) (tr : List Store) (invocs : Nat) (msg : String) :
    (uploadFailureHandler s1 u1 notifs tr invocs msg).invocations = invocs := by
  simp only [uploadFailureHandler]
  split <;> rfl

theorem retryGo_all_error_le {α : Type} (msgs : Nat → String)
    (op : Nat → Except String α) :
    ∀ rem i, (∀ j, j ≤ i + rem → op j = Except.error (msgs j)) →
      retryGo op i rem = (Except.error (msgs (i + rem)), rem + 1) := by
  intro rem
  induction rem with
  | zero =>
    intro i hop
    simp [retryGo_error_zero (hop i (by omega))]
  | succ r ih =>
    intro i hop
    rw [retryGo_error_succ (hop i (by omega)) r, ih (i + 1) (fun j hj => hop j (by omega))]
    have : i + 1 + r = i + (r + 1) := by omega
    rw [this]

/-! ### Claim C10 -/

/-- Claim C10: for every store state, the snapshot returned by
`getQueueStatus` satisfies `total = pending + uploading + failed`,
because every stored record's status is exactly one of `pending`,
`uploading`, `failed`. -/
theorem getQueueStatus_total_eq_sum (s : Store) :
    (getQueueStatus s).total =
      (getQueueStatus s).pending + (getQueueStatus s).uploading + (getQueueStatus s).failed := by
  simp only [getQueueStatus, dbGetAll]
  induction s with
  | nil => rfl
  | cons u rest ih =>
    cases hst : u.status <;>
      simp only [List.filter_cons, hst, List.length_cons, decide_eq_true_eq] <;>
      simp <;> omega

/-! ### Claim C9 -/

/-- Claim C9: `retryWithBackoff` with `maxRetries = n` invokes the
operation at most `n + 1` times; if the `k`-th invocation (0-based,
`k ≤ n`) is the first success it returns that result after exactly
`k + 1` invocations; and if every invocation fails it throws the error
of the last (the `n`-th) invocation after exactly `n + 1` invocations. -/
theorem retryWithBackoff_attempt_bounds {α : Type} (op : Nat → Except String α) (n : Nat) :
    retryInvocations op n ≤ n + 1 ∧
    (∀ k v, k ≤ n → op k = Except.ok v → (∀ j, j < k → ∃ e, op j = Except.error e) →
      retryWithBackoff op n = Except.ok v ∧ retryInvocations op n = k + 1) ∧
    (∀ msgs : Nat → String, (∀ j, j ≤ n → op j = Except.error (msgs j)) →
      retryWithBackoff op n = Except.error (msgs n) ∧ retryInvocations op n = n + 1) := by
  refine ⟨retryGo_invocations_le op n 0, ?_, ?_⟩
  · intro k v hk hok hprev
    have h := retryGo_first_success op v k n 0 (by simpa using hok)
      (fun j hj => by simpa using hprev j hj) hk
    exact ⟨by simp [retryWithBackoff, h], by simp [retryInvocations, h]⟩
  · intro msgs hall
    have h := retryGo_all_error_le msgs op n 0 (fun j hj => hall j (by omega))
    simp only [Nat.zero_add] at h
    exact ⟨by simp [retryWithBackoff, h], by simp [retryInvocations, h]⟩

/-- Witness for C9: an operation failing on invocations 0 and 1 and
succeeding on invocation 2, run with `maxRetries = 3`. -/
theorem retryWithBackoff_attempt_bounds_witness :
    retryInvocations (fun j => if j < 2 then Except.error "boom" else Except.ok 7) 3 ≤ 4 ∧
    retryWithBackoff (fun j => if j < 2 then Except.error "boom" else Except.ok 7) 3 =
      Except.ok 7 ∧
    retryInvocations (fun j => if j < 2 then Except.error "boom" else Except.ok 7) 3 = 3 := by
  obtain ⟨h1, h2, _⟩ :=
    retryWithBackoff_attempt_bounds (fun j => if j < 2 then Except.error "boom" else Except.ok 7) 3
  have h := h2 2 7 (by omega) (by norm_num) (fun j hj => ⟨"boom", by simp [hj]⟩)
  exact ⟨h1, h.1, h.2⟩

/-! ### Claim C4 -/

/-- Claim C4 counterexample: with a valid configuration whose
`initialDelay` exceeds `maxDelay` (`initialDelay = 20000`,
`maxDelay = 10000`, `factor = 2`, attempt 1, random draw 0) the computed
delay is clamped to `maxDelay = 10000`, strictly below the claimed lower
bound `initialDelay * factor^(attempt-1) = 20000`. -/
theorem backoff_lower_bound_counterexample :
    ¬ ((20000 : ℚ) * 2 ^ (1 - 1) ≤ calculateBackoffDelay 1 20000 10000 2 0) := by
  norm_num [calculateBackoffDelay]

/-- Claim C4, amended: the delay is always clamped to `maxDelay`, and
jitter is strictly additive, so the delay is at least
`min (initialDelay * factor^(attempt-1)) maxDelay`; the claimed lower
bound `initialDelay * factor^(attempt-1)` itself holds exactly when that
exponential base does not exceed `maxDelay`. -/
theorem backoff_delay_bounds (attempt : Nat) (initialDelay maxDelay backoffFactor r : ℚ)
    (hr : 0 ≤ r) (hd : 0 ≤ initialDelay) (hf : 0 ≤ backoffFactor) :
    calculateBackoffDelay attempt initialDelay maxDelay backoffFactor r ≤ maxDelay ∧
    min (initialDelay * backoffFactor ^ (attempt - 1)) maxDelay ≤
      calculateBackoffDelay attempt initialDelay maxDelay backoffFactor r ∧
    (initialDelay * backoffFactor ^ (attempt - 1) ≤ maxDelay →
      initialDelay * backoffFactor ^ (attempt - 1) ≤
        calculateBackoffDelay attempt initialDelay maxDelay backoffFactor r) := by
  have hbase : 0 ≤ initialDelay * backoffFactor ^ (attempt - 1) :=
    mul_nonneg hd (pow_nonneg hf _)
  have hjit : 0 ≤ r * (3 / 10) * (initialDelay * backoffFactor ^ (attempt - 1)) :=
    mul_nonneg (mul_nonneg hr (by norm_num)) hbase
  have hlow : min (initialDelay * backoffFactor ^ (attempt - 1)) maxDelay ≤
      calculateBackoffDelay attempt initialDelay maxDelay backoffFactor r := by
    simp only [calculateBackoffDelay]
    exact min_le_min (by linarith) le_rfl
  refine ⟨?_, hlow, ?_⟩
  · simp only [calculateBackoffDelay]
    exact min_le_right _ _
  · intro hle
    rwa [min_eq_left hle] at hlow

/-- Witness for the amended C4 at attempt 2, defaults
`initialDelay = 1000`, `maxDelay = 10000`, `factor = 2` and random draw
`1/2`. -/
theorem backoff_delay_bounds_witness :
    (0 : ℚ) ≤ 1 / 2 ∧ (0 : ℚ) ≤ 1000 ∧ (0 : ℚ) ≤ 2 ∧
    calculateBackoffDelay 2 1000 10000 2 (1 / 2) ≤ 10000 ∧
    min ((1000 : ℚ) * 2 ^ (2 - 1)) 10000 ≤ calculateBackoffDelay 2 1000 10000 2 (1 / 2) := by
  have h := backoff_delay_bounds 2 1000 10000 2 (1 / 2) (by norm_num) (by norm_num) (by norm_num)
  exact ⟨by norm_num, by norm_num, by norm_num, h.1, h.2.1⟩

/-! ### Claim C3 -/

/-- Claim C3: the drain is single-flight.  First, whenever the
`isProcessing` guard is set, any further `processQueue` invocation (the
shared entry point of explicit calls, `addToQueue`'s auto-trigger, the
`online` listener, `retryUpload` and `retryAllFailed`) returns
immediately: the state is unchanged, no notification is emitted, no
network invocation happens, and nothing is queued.  Second, in the
interleaving model of guard events started from the initial state, at
most one drain pass is actively iterating records at any instant. -/
theorem drain_single_flight :
    (∀ (q : QueueState) (online : Bool) (op : String → Nat → Except String Response),
      q.isProcessing = true → processQueue q online op = (q, [], 0)) ∧
    (∀ evs : List DrainEvent, (List.foldl drainStep flightInit evs).active ≤ 1) := by
  constructor
  · intro q online op h
    simp [processQueue, h]
  · intro evs
    have h := foldl_drainStep_inv evs flightInit (by simp [FlightInv, flightInit])
    unfold FlightInv at h
    rw [h]
    split <;> omega

/-- Witness for C3: a second `processQueue` call while the guard is set
(store holding one pending record, online, transfer available) is an
immediate no-op, and a schedule with two `tryStart`s and a `finish`
never has two active passes. -/
theorem drain_single_flight_witness :
    processQueue { isProcessing := true, store := [mkUpload "w3" UploadStatus.pending 0] } true
        (fun _ _ => Except.ok { ok := true, statusCode := 200 }) =
      ({ isProcessing := true, store := [mkUpload "w3" UploadStatus.pending 0] }, [], 0) ∧
    (List.foldl drainStep flightInit
        [DrainEvent.tryStart, DrainEvent.tryStart, DrainEvent.finish]).active ≤ 1 :=
  ⟨drain_single_flight.1 _ true _ rfl, drain_single_flight.2 _⟩

/-! ### Claim C8 -/

/-- Claim C8: `retryUpload` on an absent id fails with `NotFound` (and,
being a pure lookup failure, performs no store mutation); on a present
record it resets the status to `pending`, clears the error, leaves
`retryCount` unchanged, persists the change (the updated record is what
a subsequent `get` observes), and triggers a drain. -/
theorem retryUpload_spec (s : Store) (uploadId : String) :
    (dbGet s uploadId = none → retryUpload s uploadId = Except.error (QMError.notFound uploadId)) ∧
    (∀ u, dbGet s uploadId = some u →
      retryUpload s uploadId =
        Except.ok (dbUpdate s { u with status := UploadStatus.pending, error := none }, true) ∧
      ({ u with status := UploadStatus.pending, error := none } : PendingUpload).retryCount
        = u.retryCount ∧
      dbGet (dbUpdate s { u with status := UploadStatus.pending, error := none }) uploadId =
        some { u with status := UploadStatus.pending, error := none }) := by
  constructor
  · intro h
    simp [retryUpload, h]
  · intro u h
    refine ⟨by simp [retryUpload, h], rfl, ?_⟩
    have hid : u.id = uploadId := dbGet_eq_some_id h
    rw [← hid]
    exact dbGet_dbUpdate_self s _

/-- Witness for C8: the absent case on id `missing`, and the present
case on a one-record store holding a failed record. -/
theorem retryUpload_spec_witness :
    retryUpload [] "missing" = Except.error (QMError.notFound "missing") ∧
    retryUpload [mkUpload "w8" UploadStatus.failed 2] "w8" =
      Except.ok (dbUpdate [mkUpload "w8" UploadStatus.failed 2]
        { mkUpload "w8" UploadStatus.failed 2 with
            status := UploadStatus.pending, error := none }, true) := by
  refine ⟨(retryUpload_spec [] "missing").1 rfl, ?_⟩
  exact ((retryUpload_spec [mkUpload "w8" UploadStatus.failed 2] "w8").2
    (mkUpload "w8" UploadStatus.failed 2) (by decide)).1

/-! ### Claim C1 -/

/-- Claim C1 counterexample: a record with `retryCount = 4` whose
transfer fails after all sub-retries.  The drain persists the record with
status `failed` and `retryCount = 5` (and notifies subscribers with that
state) before deleting it: the intermediate stored `failed`/`retryCount
= 5` state is observable in the store trace, contradicting the claim
that no such state is ever observable. -/
theorem eviction_intermediate_failed_state_counterexample :
    (∃ st ∈ (processUpload [mkUpload "c1" UploadStatus.pending 4]
        (mkUpload "c1" UploadStatus.pending 4) (fun _ => Except.error "net down")).trace,
      dbGet st "c1" =
        some (markFailed (markUploading (mkUpload "c1" UploadStatus.pending 4)) "net down")) ∧
    (markFailed (markUploading (mkUpload "c1" UploadStatus.pending 4)) "net down").status =
      UploadStatus.failed ∧
    (markFailed (markUploading (mkUpload "c1" UploadStatus.pending 4)) "net down").retryCount
      = 5 ∧
    markFailed (markUploading (mkUpload "c1" UploadStatus.pending 4)) "net down" ∈
      (processUpload [mkUpload "c1" UploadStatus.pending 4]
        (mkUpload "c1" UploadStatus.pending 4) (fun _ => Except.error "net down")).notifications := by
  decide

/-- Claim C1, amended: on failure after all sub-retries the drain always
increments `retryCount`, sets status `failed` and `lastError`, persists
that state and notifies subscribers — also when the incremented count
reaches 5, so the stored `failed`/`retryCount = 5` state is briefly
observable; only afterwards, when the incremented count is ≥ 5, is the
record deleted, and the final store has no record for the id; when the
incremented count is < 5 the record remains persisted as `failed`. -/
theorem record_failure_persists_then_evicts (s : Store) (u : PendingUpload)
    (msgs : Nat → String) :
    (processUpload s u (fun i => Except.error (msgs i))).notifications =
      [markUploading u, markFailed (markUploading u) (msgs 3)] ∧
    (markFailed (markUploading u) (msgs 3)).retryCount = u.retryCount + 1 ∧
    (markFailed (markUploading u) (msgs 3)).status = UploadStatus.failed ∧
    (markFailed (markUploading u) (msgs 3)).error = some (msgs 3) ∧
    dbUpdate (dbUpdate s (markUploading u)) (markFailed (markUploading u) (msgs 3)) ∈
      (processUpload s u (fun i => Except.error (msgs i))).trace ∧
    dbGet (dbUpdate (dbUpdate s (markUploading u)) (markFailed (markUploading u) (msgs 3)))
        u.id = some (markFailed (markUploading u) (msgs 3)) ∧
    dbGet (processUpload s u (fun i => Except.error (msgs i))).store u.id =
      (if u.retryCount + 1 ≥ 5 then none
       else some (markFailed (markUploading u) (msgs 3))) := by
  have hrun : retryGo (fun i => (Except.error (msgs i) : Except String Response)) 0 3 =
      (Except.error (msgs 3), 4) := by
    simpa using retryGo_all_error_le msgs
      (fun i => (Except.error (msgs i) : Except String Response)) 3 0 (fun j _ => rfl)
  have hfail : processUpload s u (fun i => Except.error (msgs i)) =
      uploadFailureHandler (dbUpdate s (markUploading u)) (markUploading u)
        [markUploading u] [dbUpdate s (markUploading u)] 4 (msgs 3) := by
    simp [processUpload, hrun]
  have hget : dbGet (dbUpdate (dbUpdate s (markUploading u))
      (markFailed (markUploading u) (msgs 3))) u.id =
      some (markFailed (markUploading u) (msgs 3)) := by
    have := dbGet_dbUpdate_self (dbUpdate s (markUploading u))
      (markFailed (markUploading u) (msgs 3))
    simpa using this
  rw [hfail]
  unfold uploadFailureHandler
  by_cases h5 : u.retryCount + 1 ≥ 5
  · have h5' : (markFailed (markUploading u) (msgs 3)).retryCount ≥ 5 := by simpa using h5
    simp only [h5', if_pos, h5]
    refine ⟨rfl, rfl, rfl, rfl, by simp, hget, ?_⟩
    have := dbGet_dbDelete_self (dbUpdate (dbUpdate s (markUploading u))
      (markFailed (markUploading u) (msgs 3))) u.id
    simpa using this
  · have h5' : ¬ (markFailed (markUploading u) (msgs 3)).retryCount ≥ 5 := by simpa using h5
    simp only [h5', if_neg, ite_false, h5]
    refine ⟨rfl, rfl, rfl, rfl, by simp, hget, ?_⟩
    exact hget

/-! ### Claim C2 -/

/-- Claim C2 counterexample: a server that answers every invocation with
HTTP 500.  `fetch` resolves without throwing, so `retryWithBackoff`
returns the response after a single invocation — zero internal
sub-retries — and the non-`ok` status is only then thrown, outside the
helper, immediately incrementing the record-level `retryCount`:
contrary to the claim, an error HTTP status is not retried internally
before the record-level failure. -/
theorem http_error_not_subretried_counterexample :
    (processUpload [mkUpload "c2" UploadStatus.pending 0] (mkUpload "c2" UploadStatus.pending 0)
      (fun _ => Except.ok { ok := false, statusCode := 500 })).invocations = 1 ∧
    dbGet (processUpload [mkUpload "c2" UploadStatus.pending 0]
        (mkUpload "c2" UploadStatus.pending 0)
        (fun _ => Except.ok { ok := false, statusCode := 500 })).store "c2" =
      some (markFailed (markUploading (mkUpload "c2" UploadStatus.pending 0))
        ("업로드 실패: " ++ toString 500)) := by
  decide

/-- Claim C2, amended: failures in which the transfer call itself throws
(network errors) are retried internally by `retryWithBackoff` up to
`maxRetries = 3` times with backoff — four invocations in total — before
the record-level `retryCount` is incremented by one and the record is
requeued as `failed`; an error HTTP status, however, is returned by the
retry helper after a single invocation without any internal retry, and
is then treated directly as a record-level failure. -/
theorem two_level_retry_policy (s : Store) (u : PendingUpload) (msgs : Nat → String)
    (code : Nat) :
    (processUpload s u (fun i => (Except.error (msgs i) : Except String Response))).invocations
      = 4 ∧
    (processUpload s u
        (fun i => (Except.error (msgs i) : Except String Response))).notifications.getLast? =
      some (markFailed (markUploading u) (msgs 3)) ∧
    (markFailed (markUploading u) (msgs 3)).retryCount = u.retryCount + 1 ∧
    (processUpload s u (fun _ => Except.ok { ok := false, statusCode := code })).invocations
      = 1 ∧
    (processUpload s u
        (fun _ => Except.ok { ok := false, statusCode := code })).notifications.getLast? =
      some (markFailed (markUploading u) ("업로드 실패: " ++ toString code)) := by
  have hrun : retryGo (fun i => (Except.error (msgs i) : Except String Response)) 0 3 =
      (Except.error (msgs 3), 4) := by
    simpa using retryGo_all_error_le msgs
      (fun i => (Except.error (msgs i) : Except String Response)) 3 0 (fun j _ => rfl)
  have hok : retryGo (fun _ => (Except.ok { ok := false, statusCode := code } :
      Except String Response)) 0 3 = (Except.ok { ok := false, statusCode := code }, 1) :=
    @retryGo_ok Response (fun _ => Except.ok { ok := false, statusCode := code }) 0
      { ok := false, statusCode := code } rfl 3
  have herr : processUpload s u (fun i => (Except.error (msgs i) : Except String Response)) =
      uploadFailureHandler (dbUpdate s (markUploading u)) (markUploading u)
        [markUploading u] [dbUpdate s (markUploading u)] 4 (msgs 3) := by
    simp [processUpload, hrun]
  have hhttp : processUpload s u (fun _ => Except.ok { ok := false, statusCode := code }) =
      uploadFailureHandler (dbUpdate s (markUploading u)) (markUploading u)
        [markUploading u] [dbUpdate s (markUploading u)] 1
        ("업로드 실패: " ++ toString code) := by
    simp [processUpload, hok]
  refine ⟨?_, ?_, rfl, ?_, ?_⟩
  · rw [herr, uploadFailureHandler_invocations]
  · rw [herr, uploadFailureHandler_notifications, List.getLast?_append_cons]
    rfl
  · rw [hhttp, uploadFailureHandler_invocations]
  · rw [hhttp, uploadFailureHandler_notifications, List.getLast?_append_cons]
    rfl

/-! ### Claim C7 -/

/-- Claim C7 counterexample: a pending record whose transfer succeeds.
The store state immediately before the deletion holds the record with
status `uploading` (persisted at the start of the drain iteration), but
the completion event reports the hard-coded literal `pending` — not the
pre-deletion status `uploading` as the claim states. -/
theorem completion_status_counterexample :
    (processUpload [mkUpload "c7" UploadStatus.pending 0] (mkUpload "c7" UploadStatus.pending 0)
        (fun _ => Except.ok { ok := true, statusCode := 200 })).trace.head? =
      some (dbUpdate [mkUpload "c7" UploadStatus.pending 0]
        (markUploading (mkUpload "c7" UploadStatus.pending 0))) ∧
    dbGet (dbUpdate [mkUpload "c7" UploadStatus.pending 0]
        (markUploading (mkUpload "c7" UploadStatus.pending 0))) "c7" =
      some (markUploading (mkUpload "c7" UploadStatus.pending 0)) ∧
    (markUploading (mkUpload "c7" UploadStatus.pending 0)).status = UploadStatus.uploading ∧
    (processUpload [mkUpload "c7" UploadStatus.pending 0] (mkUpload "c7" UploadStatus.pending 0)
        (fun _ => Except.ok { ok := true, statusCode := 200 })).notifications.getLast? =
      some (successNotification (markUploading (mkUpload "c7" UploadStatus.pending 0))) ∧
    (successNotification (markUploading (mkUpload "c7" UploadStatus.pending 0))).status =
      UploadStatus.pending ∧
    UploadStatus.pending ≠ UploadStatus.uploading := by
  decide

/-- Claim C7, amended: on transfer success the record is deleted from
the store, subscribers are notified exactly once with the synthetic
completion event carrying `progress = 100`, whose reported status is the
hard-coded literal `pending` (not the record's pre-deletion stored
status `uploading`); the delivery loop hands the event to each
registered subscriber exactly once; and no `completed` status can ever
be persisted, every stored status being one of `pending`, `uploading`,
`failed`. -/
theorem success_deletes_and_notifies (s : Store) (u : PendingUpload)
    (op : Nat → Except String Response) (resp : Response) (k : Nat)
    (hrun : retryGo op 0 3 = (Except.ok resp, k)) (hok : resp.ok = true) :
    dbGet (processUpload s u op).store u.id = none ∧
    (processUpload s u op).notifications =
      [markUploading u, successNotification (markUploading u)] ∧
    (successNotification (markUploading u)).progress = 100 ∧
    (successNotification (markUploading u)).status = UploadStatus.pending ∧
    ((processUpload s u op).notifications).count (successNotification (markUploading u)) = 1 ∧
    (∀ (subs : List Nat) (sb : Nat),
      (notifyProgress subs (successNotification (markUploading u))).count
          (sb, successNotification (markUploading u)) = subs.count sb) ∧
    (∀ r : PendingUpload, r.status = UploadStatus.pending ∨
      r.status = UploadStatus.uploading ∨ r.status = UploadStatus.failed) := by
  have hproc : processUpload s u op =
      { store := dbDelete (dbUpdate s (markUploading u)) (markUploading u).id
        notifications := [markUploading u, successNotification (markUploading u)]
        trace := [dbUpdate s (markUploading u),
          dbDelete (dbUpdate s (markUploading u)) (markUploading u).id]
        invocations := k } := by
    simp [processUpload, hrun, hok]
  have hne : markUploading u ≠ successNotification (markUploading u) := by
    intro h
    have := congrArg PendingUpload.status h
    simp [markUploading, successNotification] at this
  refine ⟨?_, by rw [hproc], rfl, rfl, ?_, ?_, ?_⟩
  · rw [hproc]
    simpa using dbGet_dbDelete_self (dbUpdate s (markUploading u)) u.id
  · rw [hproc]
    simp [List.count_cons, hne]
  · intro subs sb
    exact notifyProgress_count subs (successNotification (markUploading u)) sb
  · intro r
    cases h : r.status
    · exact Or.inl rfl
    · exact Or.inr (Or.inl rfl)
    · exact Or.inr (Or.inr rfl)

/-- Witness for the amended C7: a one-record store whose transfer
succeeds with HTTP 201 on the first invocation. -/
theorem success_deletes_and_notifies_witness :
    dbGet (processUpload [mkUpload "w7" UploadStatus.pending 0]
        (mkUpload "w7" UploadStatus.pending 0)
        (fun _ => Except.ok { ok := true, statusCode := 201 })).store
      (mkUpload "w7" UploadStatus.pending 0).id = none ∧
    (processUpload [mkUpload "w7" UploadStatus.pending 0]
        (mkUpload "w7" UploadStatus.pending 0)
        (fun _ => Except.ok { ok := true, statusCode := 201 })).notifications =
      [markUploading (mkUpload "w7" UploadStatus.pending 0),
       successNotification (markUploading (mkUpload "w7" UploadStatus.pending 0))] := by
  have h := success_deletes_and_notifies [mkUpload "w7" UploadStatus.pending 0]
    (mkUpload "w7" UploadStatus.pending 0)
    (fun _ => Except.ok { ok := true, statusCode := 201 })
    { ok := true, statusCode := 201 } 1 rfl rfl
  exact ⟨h.1, h.2.1⟩

/-! ### Claim C5 -/

/-- Claim C5 counterexample: a record in `uploading` status is canceled
(deleted) while its drain iteration is in progress; the iteration's
post-attempt failure update then runs.  Because the wrapper's `update`
is an IndexedDB `put` (an upsert), the deleted record is re-inserted:
afterwards the record is present in the store again, contradicting the
claim that it stays absent. -/
theorem cancel_midflight_resurrection_counterexample :
    cancelUpload [markUploading (mkUpload "c5" UploadStatus.pending 0)] "c5" = ([] : Store) ∧
    dbGet (uploadFailureHandler
        (cancelUpload [markUploading (mkUpload "c5" UploadStatus.pending 0)] "c5")
        (markUploading (mkUpload "c5" UploadStatus.pending 0)) [] [] 4 "network error").store
      "c5" ≠ none := by
  decide

/-- Claim C5, amended: when a record is canceled (deleted) while a drain
iteration for it is in flight, the iteration's post-attempt persistence
raises no error, but it does not leave the record absent: the wrapper's
`update` is an IndexedDB `put` (upsert), so the post-attempt `failed`
state is re-inserted into the store (the later write wins, not the
deletion) — unless the incremented `retryCount` reaches 5, in which case
the handler's own eviction deletes it again. -/
theorem cancel_raced_update_reinserts (s : Store) (u : PendingUpload) (msg : String)
    (notifs : List PendingUpload) (tr : List Store) (invocs : Nat) :
    dbGet (uploadFailureHandler (cancelUpload s u.id) u notifs tr invocs msg).store u.id =
      (if u.retryCount + 1 ≥ 5 then none else some (markFailed u msg)) := by
  simp only [uploadFailureHandler, markFailed_retryCount]
  by_cases h5 : u.retryCount + 1 ≥ 5
  · simp only [if_pos h5]
    simpa using dbGet_dbDelete_self (dbUpdate (cancelUpload s u.id) (markFailed u msg)) u.id
  · simp only [if_neg h5]
    simpa using dbGet_dbUpdate_self (cancelUpload s u.id) (markFailed u msg)

/-! ### Claim C6 -/

/-- Claim C6 counterexample: a store holding one record orphaned in
`uploading` status.  `init` performs no store access (no re-homing), and
a subsequent drain pass — online, with a transfer that would succeed —
performs zero network invocations and leaves the store unchanged: the
orphaned record is present but is never attempted again, contrary to the
claim. -/
theorem orphaned_in_flight_counterexample :
    (qmInit { store := [mkUpload "c6" UploadStatus.uploading 0], isProcessing := false,
              onlineListenerRegistered := false }).store =
      [mkUpload "c6" UploadStatus.uploading 0] ∧
    processQueue { isProcessing := false, store := [mkUpload "c6" UploadStatus.uploading 0] }
        true (fun _ _ => Except.ok { ok := true, statusCode := 200 }) =
      ({ isProcessing := false, store := [mkUpload "c6" UploadStatus.uploading 0] }, [], 0) := by
  decide

/-- Claim C6, amended: a record left in `uploading` (in-flight) status
remains present in the store across a drain pass, but it is not
attempted again: `processQueue` lists only records whose status is
`pending`, which excludes the orphaned record, and `init` performs no
store writes, so no re-homing to `pending` ever happens. -/
theorem orphaned_uploading_not_redrained (s : Store) (u : PendingUpload)
    (op : String → Nat → Except String Response)
    (hmem : u ∈ s) (hst : u.status = UploadStatus.uploading)
    (hnodup : (List.map PendingUpload.id s).Nodup) :
    u ∈ (processQueue { isProcessing := false, store := s } true op).1.store ∧
    u.id ∉ List.map PendingUpload.id (dbGetByIndexStatus s UploadStatus.pending) ∧
    (∀ m : QMFull, (qmInit m).store = m.store) := by
  have hids : ∀ r ∈ dbGetByIndexStatus s UploadStatus.pending, r.id ≠ u.id := by
    intro r hr heq
    obtain ⟨hrs, hrp⟩ := List.mem_filter.mp hr
    have hrpend : r.status = UploadStatus.pending := of_decide_eq_true hrp
    have : r = u := List.inj_on_of_nodup_map hnodup hrs hmem heq
    rw [this, hst] at hrpend
    cases hrpend
  refine ⟨?_, ?_, ?_⟩
  · show u ∈ (drainRecords s (dbGetByIndexStatus s UploadStatus.pending) op).1
    exact drainRecords_mem op (dbGetByIndexStatus s UploadStatus.pending) s hmem hids
  · intro hin
    obtain ⟨r, hr, hid⟩ := List.mem_map.mp hin
    exact hids r hr hid
  · intro m
    unfold qmInit
    split <;> rfl

/-- Witness for the amended C6: a one-record store holding an orphaned
`uploading` record, drained online with a transfer that would succeed. -/
theorem orphaned_uploading_not_redrained_witness :
    mkUpload "w6" UploadStatus.uploading 1 ∈
      (processQueue { isProcessing := false, store := [mkUpload "w6" UploadStatus.uploading 1] }
        true (fun _ _ => Except.ok { ok := true, statusCode := 200 })).1.store ∧
    (mkUpload "w6" UploadStatus.uploading 1).id ∉
      List.map PendingUpload.id
        (dbGetByIndexStatus [mkUpload "w6" UploadStatus.uploading 1] UploadStatus.pending) := by
  have h := orphaned_uploading_not_redrained [mkUpload "w6" UploadStatus.uploading 1]
    (mkUpload "w6" UploadStatus.uploading 1)
    (fun _ _ => Except.ok { ok := true, statusCode := 200 })
    (List.mem_singleton.mpr rfl) rfl (by simp)
  exact ⟨h.1, h.2.1⟩

end ProQueue
